import Mathlib

/-!
Verification development for the discord-encoder-bot orchestration layer.

Shallow embedding of the job-tracking, admission, timeout, artifact-resolution
and chunked-upload logic of `src/encoder.py`, `src/downloader.py` and
`src/uploader.py`.  Each definition is transcribed from the named source
function; theorems settle the specification claims about them.
-/

/-! ## Encoder admission (src/encoder.py, `FastVideoEncoder`)

The encoder keeps a dict `active_encodes` keyed by encode id behind
`encode_lock`; we model the key set as a duplicate-free list of ids.
`max_concurrent_encodes = 3` (encoder.py line 37). -/

/-- `FastVideoEncoder.max_concurrent_encodes` (encoder.py line 37). -/
def maxConcurrentEncodes : Nat := 3

/-- `FastVideoEncoder.add_active_encode` (encoder.py lines 116-122): dict
assignment keyed by `encode_id`; inserting an existing key overwrites and
does not grow the map. -/
def addActiveEncode (id : String) (s : List String) : List String :=
  if s.contains id then s else id :: s

/-- `FastVideoEncoder.remove_active_encode` (encoder.py lines 124-127):
deletes the key if present. -/
def removeActiveEncode (id : String) (s : List String) : List String :=
  s.filter (fun x => x != id)

/-- `FastVideoEncoder.can_start_new_encode` (encoder.py lines 108-110):
`len(active_encodes) < max_concurrent_encodes`. -/
def canStartNewEncode (s : List String) : Bool :=
  s.length < maxConcurrentEncodes

/-- Admission portion of `FastVideoEncoder.encode_single_pass`
(encoder.py lines 436-455): if the gate is full, return the rejection
message built from the live count and the capacity without registering;
otherwise check the three input files exist (modelled by `filesOk`) and
only then call `add_active_encode`.  There is no `await` between the
capacity check and the registration, so under the single event loop the
check-then-add pair is atomic, which this function transcribes.
The Turkish message text is transliterated to ASCII. -/
def encodeSinglePassAdmit (s : List String) (id : String) (filesOk : Bool) :
    (Bool × String) × List String :=
  if !canStartNewEncode s then
    ((false, "Maksimum encode limitine ulasildi! Aktif: " ++
      toString s.length ++ "/" ++ toString maxConcurrentEncodes), s)
  else if !filesOk then
    ((false, "dosya bulunamadi"), s)
  else
    ((true, "started"), addActiveEncode id s)

/-- One externally observable operation on the encoder registry: a
submission through `encode_single_pass`, or the completion step that calls
`remove_active_encode` (encoder.py line 526). -/
inductive EncOp where
  | submit (id : String) (filesOk : Bool)
  | finish (id : String)

/-- Effect of one operation on the `active_encodes` key set. -/
def encStep (s : List String) : EncOp → List String
  | .submit id filesOk => (encodeSinglePassAdmit s id filesOk).2
  | .finish id => removeActiveEncode id s

/-- Run a sequence of submissions and completions from the empty registry. -/
def encRun (ops : List EncOp) : List String :=
  ops.foldl encStep []

/-! ## Job registries and de-registration traces
(src/downloader.py `SimpleDownloadManager`, src/uploader.py `UploadManager`) -/

/-- A registry operation: `add_download`/`add_upload`/`add_active_encode`
versus the matching removal. -/
inductive RegOp where
  | add (id : String)
  | remove (id : String)

/-- Apply one registry operation to the key set.  Removal mirrors
`active_downloads.pop(download_id, None)` (downloader.py line 24) and the
guarded `del` of the upload/encode managers: removing an absent key is a
no-op. -/
def applyRegOp (s : List String) : RegOp → List String
  | .add id => if s.contains id then s else id :: s
  | .remove id => s.filter (fun x => x != id)

/-- Apply a whole trace of registry operations. -/
def applyRegOps (ops : List RegOp) (s : List String) : List String :=
  ops.foldl applyRegOp s

/-- Number of removal calls for `id` in a trace. -/
def removeCount (ops : List RegOp) (id : String) : Nat :=
  (ops.filter (fun o => match o with | .remove j => j == id | _ => false)).length

/-- Environment resolving the branch points of `download_magnet_fast`
(downloader.py lines 88-242): whether `asyncio.create_subprocess_exec`
succeeds, whether `find_downloaded_file` returns a path, and whether the
`os.path.getsize(result_file)` call on line 201 raises. -/
structure DLEnv where
  spawnOk : Bool
  fileFound : Bool
  getsizeRaises : Bool

/-- Registry trace of one `download_magnet_fast` run (downloader.py lines
88-242).  If the spawn raises, control jumps to the handler at line 238
which calls `remove_download` (line 241) although nothing was added.
Otherwise `add_download` runs at line 95 and `remove_download` at line 193
on the way out; when a result file was found and `os.path.getsize` on
line 201 raises, the handler at line 238 calls `remove_download` a second
time (line 241). -/
def downloadRegOps (env : DLEnv) (id : String) : List RegOp :=
  if !env.spawnOk then [.remove id]
  else [.add id, .remove id] ++
    (if env.fileFound && env.getsizeRaises then [.remove id] else [])

/-- Registry trace of `VideoUploadBot.upload_video` (uploader.py lines
420-469): `add_upload` at line 437 precedes the `try` block, and
`remove_upload` sits in the `finally` clause (line 469), so every exit
path — the missing-packages early return, the normal return, and a raised
exception — performs exactly one removal. -/
def uploadVideoRegOps (id : String) : List RegOp :=
  [.add id, .remove id]

/-! ## Download monitoring loop (src/downloader.py, `download_magnet_fast`)

The loop at downloader.py lines 141-179 decides each iteration whether to
keep waiting, and the decision reads only the total elapsed wall time and
the process exit flag.  The constant `max_idle_time = 300` declared on
line 120 is never consulted anywhere in the function, and no measure of
output activity enters the decision. -/

/-- `max_idle_time` (downloader.py line 120), declared but never read. -/
def maxIdleTime : Nat := 300

/-- `max_total_time` (downloader.py line 121). -/
def maxTotalTime : Nat := 1800

/-- Outcome of one iteration of the monitoring loop. -/
inductive MonitorAction where
  | keepWaiting
  | breakTotalTimeout
  | breakExited
deriving DecidableEq

/-- One iteration of the `while process.returncode is None` loop
(downloader.py lines 141-179): break when
`current_time - start_time > max_total_time` (line 145), break when the
process has exited (line 150), otherwise sleep and continue.  The decision
takes no idle-time or output-activity input at all. -/
def monitorStep (elapsed : Nat) (exited : Bool) : MonitorAction :=
  if maxTotalTime < elapsed then .breakTotalTimeout
  else if exited then .breakExited
  else .keepWaiting

/-! ## Artifact resolution (src/downloader.py, `find_downloaded_file`)

The directory listing is modelled as a list of entries carrying name,
regular-file flag, byte size and modification timestamp; `now` is the
`time.time()` captured at line 248.  String scanning is done on explicit
character lists so every predicate evaluates by `decide`. -/

/-- One entry of `os.listdir(output_dir)` together with the `os.path`
attributes the function reads. -/
structure DirEntry where
  name : String
  isFile : Bool
  size : Nat
  mtime : Int
deriving DecidableEq, Repr

/-- Character-list transliteration of Python `str.lower()` for the ASCII
range used by the extension and marker tests. -/
def lowerChars (s : String) : List Char :=
  s.toList.map Char.toLower

/-- Does `hay` start with `pat` (character lists)? -/
def segStarts : List Char → List Char → Bool
  | [], _ => true
  | _ :: _, [] => false
  | p :: ps, h :: hs => p == h && segStarts ps hs

/-- Does `hay` end with `pat`?  Mirrors Python `str.endswith`. -/
def endsWithChars (pat hay : List Char) : Bool :=
  segStarts pat.reverse hay.reverse

/-- Does `hay` contain `pat` as a contiguous segment?  Mirrors Python
`pat in hay`. -/
def strHasSeg (pat : List Char) : List Char → Bool
  | [] => segStarts pat []
  | h :: hs => segStarts pat (h :: hs) || strHasSeg pat hs

/-- `video_extensions` (downloader.py line 246). -/
def videoExtensions : List String :=
  [".mkv", ".mp4", ".avi", ".mov", ".wmv", ".flv", ".webm", ".m4v", ".ts", ".m2ts"]

/-- `any(file.lower().endswith(ext) for ext in video_extensions)`
(downloader.py line 287). -/
def isVideoName (name : String) : Bool :=
  videoExtensions.any (fun e => endsWithChars e.toList (lowerChars name))

/-- `candidate_files` (downloader.py lines 269-291): regular files whose
lower-cased name ends with a known video extension. -/
def candidateFiles (entries : List DirEntry) : List DirEntry :=
  entries.filter (fun e => e.isFile && isVideoName e.name)

/-- `recent_files` (downloader.py lines 268, 294-295): video candidates
with `(current_time - mtime) / 3600 <= 3`, i.e. modified at most 10800
seconds before `now`. -/
def recentFiles (now : Int) (entries : List DirEntry) : List DirEntry :=
  (candidateFiles entries).filter (fun e => now - e.mtime ≤ 3 * 3600)

/-- `target_files = recent_files if recent_files else candidate_files`
(downloader.py line 312). -/
def targetFiles (now : Int) (entries : List DirEntry) : List DirEntry :=
  if (recentFiles now entries).isEmpty then candidateFiles entries
  else recentFiles now entries

/-- `max(target_files, key=os.path.getsize)` (downloader.py line 339).
Python `max` keeps the first element among equal keys, which the
tie-breaking below reproduces. -/
def largestFile : List DirEntry → Option DirEntry
  | [] => none
  | e :: rest =>
    match largestFile rest with
    | none => some e
    | some m => some (if m.size > e.size then m else e)

/-- `temp_patterns` after the `'*'` strip of line 320
(downloader.py line 317). -/
def tempMarkerSubs : List String :=
  [".aria2", ".part", ".downloading", ".tmp"]

/-- `any(pattern.replace('*','') in file.lower() for pattern in
temp_patterns)` (downloader.py line 320). -/
def hasTempMarker (name : String) : Bool :=
  tempMarkerSubs.any (fun p => strHasSeg p.toList (lowerChars name))

/-- The temp-marker scan runs over every listing entry, directories
included (downloader.py lines 319-321). -/
def hasTempFiles (entries : List DirEntry) : Bool :=
  entries.any (fun e => hasTempMarker e.name)

/-- Desperate fallback (downloader.py lines 328-335): the first listing
entry that is a regular file, larger than 10 MiB, and modified at most
2 hours ago; returned directly, bypassing the rename step. -/
def desperatePick (now : Int) (entries : List DirEntry) : Option DirEntry :=
  entries.find? (fun e =>
    e.isFile && 10 * 1024 * 1024 < e.size && now - e.mtime ≤ 2 * 3600)

/-- Extension part of `os.path.splitext` (downloader.py line 345):
the suffix starting at the last dot, provided a non-dot character of the
name precedes it (leading dots never open an extension). -/
def splitextExt (name : String) : String :=
  let cs := name.toList
  let lead := cs.takeWhile (fun c => c == '.')
  let rest := cs.drop lead.length
  if rest.contains '.' then
    String.mk ('.' :: (rest.reverse.takeWhile (fun c => c != '.')).reverse)
  else ""

/-- Filesystem side effects of the rename step, in execution order. -/
inductive FsOp where
  | removeDest (name : String)
  | renameFile (src dst : String)
deriving DecidableEq, Repr

/-- Whether `os.remove` (line 351) or `os.rename` (line 355) raises. -/
structure RenameEnv where
  removeRaises : Bool
  renameRaises : Bool

/-- Rename step of `find_downloaded_file` (downloader.py lines 344-361):
build `custom_name + ext` with `ext = splitext(largest)[1] or '.mkv'`,
remove a pre-existing distinct destination, rename when the names differ,
and on any raise return the original resolved path. -/
def renameResolved (entries : List DirEntry) (largest : DirEntry)
    (customName : String) (env : RenameEnv) : String × List FsOp :=
  let extRaw := splitextExt largest.name
  let ext := if extRaw == "" then ".mkv" else extRaw
  let newName := customName ++ ext
  let destExists := entries.any (fun e => e.name == newName)
  if destExists && newName != largest.name then
    if env.removeRaises then (largest.name, [])
    else if env.renameRaises then (largest.name, [.removeDest newName])
    else (newName, [.removeDest newName, .renameFile largest.name newName])
  else if newName != largest.name then
    if env.renameRaises then (largest.name, [])
    else (newName, [.renameFile largest.name newName])
  else (newName, [])

/-- `find_downloaded_file` (downloader.py lines 244-369), returning the
resolved file name (paths are relative to `output_dir`) and the filesystem
operations performed.  Control flow: pick the largest of the target set;
with a custom name run the rename step; with no target at all, the
presence of any temp-marker entry returns `none` (lines 323-325) before
the desperate fallback is consulted. -/
def findDownloadedFile (now : Int) (entries : List DirEntry)
    (customName : Option String) (env : RenameEnv) :
    Option String × List FsOp :=
  match largestFile (targetFiles now entries) with
  | some L =>
    match customName with
    | some c =>
      let r := renameResolved entries L c env
      (some r.1, r.2)
    | none => (some L.name, [])
  | none =>
    if hasTempFiles entries then (none, [])
    else ((desperatePick now entries).map (fun e => e.name), [])

/-! ## Chunked upload progress events
(src/uploader.py, `GoogleDriveUploader.upload_with_progress`)

The while loop at uploader.py lines 245-304 reads a stream of
`request.next_chunk()` statuses.  For the progress-event claims we record
each polled status as the pair `(pct, elapsed)` where `pct` is
`int(status.progress() * 100)` and `elapsed` the positive wall time since
the attempt started.  A progress event is delivered only under
`progress > last_progress and elapsed_time > 0` (line 255), and
`last_progress` is updated inside that branch (line 276). -/

/-- Progress-event filter of one attempt, starting from a given
`last_progress`. -/
def progressEventsAux : Nat → List (Nat × Nat) → List Nat
  | _, [] => []
  | last, (pct, elapsed) :: rest =>
    if last < pct && 0 < elapsed then pct :: progressEventsAux pct rest
    else progressEventsAux last rest

/-- Progress events of one attempt: `last_progress` starts at 0
(uploader.py line 240). -/
def progressEvents (inputs : List (Nat × Nat)) : List Nat :=
  progressEventsAux 0 inputs

/-- Callback stream over the whole `upload_with_progress` call: the outer
`for attempt in range(max_retries)` loop (line 205) re-runs the transfer
from scratch on an attempt-level retry, re-initialising `last_progress`
to 0 each time (line 240), so the streams of successive attempts are
concatenated. -/
def uploadCallbackStream : List (List (Nat × Nat)) → List Nat
  | [] => []
  | a :: rest => progressEvents a ++ uploadCallbackStream rest

/-! ## Chunk-level retry loop (uploader.py lines 245-304)

Each `request.next_chunk()` call either returns a status (`ok`, with the
final call completing the upload), raises an `HttpError` with a status
code, or raises some other exception.  `retry_chunk_count` is reset to 0
after every successful call (line 248).  A server-class `HttpError`
(500/502/503/504) is retried after `sleep(min(retry_chunk_count * 2, 10))`
until the fifth consecutive failure re-raises (lines 289-293); any other
`HttpError` re-raises at once (line 295); a generic exception is retried
after `sleep(retry_chunk_count * 2)` until the third consecutive failure
re-raises (lines 297-304). -/

/-- One modelled result of `request.next_chunk()`. -/
inductive ChunkRes where
  | ok (pct : Nat) (done : Bool)
  | httpE (status : Nat)
  | excE
deriving DecidableEq, Repr

/-- How the chunk loop ends. -/
inductive ChunkOutcome where
  | completed
  | escalatedHttp (status : Nat)
  | escalatedExc
  | outOfSteps
deriving DecidableEq, Repr

/-- The chunk loop, threading `retry_chunk_count` and collecting the
backoff delays (the arguments of the two `asyncio.sleep` calls on lines
292 and 303) in order. -/
def chunkLoop : Nat → List ChunkRes → ChunkOutcome × List Nat
  | _, [] => (.outOfSteps, [])
  | rcc, r :: rest =>
    match r with
    | .ok _ done =>
      if done then (.completed, []) else chunkLoop 0 rest
    | .httpE s =>
      if s == 500 || s == 502 || s == 503 || s == 504 then
        if 5 ≤ rcc + 1 then (.escalatedHttp s, [])
        else
          let p := chunkLoop (rcc + 1) rest
          (p.1, Nat.min ((rcc + 1) * 2) 10 :: p.2)
      else (.escalatedHttp s, [])
    | .excE =>
      if 3 ≤ rcc + 1 then (.escalatedExc, [])
      else
        let p := chunkLoop (rcc + 1) rest
        (p.1, (rcc + 1) * 2 :: p.2)

/-! ## Attempt-level retry loop (uploader.py lines 205-389)

`upload_with_progress` wraps the whole transfer in
`for attempt in range(max_retries)`.  Every iteration rebuilds the
transfer from the beginning: a fresh `MediaFileUpload` (line 226) and a
fresh `files().create` request (line 233) with no resume offset, so each
attempt's transfer starts at byte 0 whatever progress an earlier attempt
had reached.  The handlers at lines 349-387 classify the attempt-level
failure. -/

/-- Result of one whole attempt: success, an `HttpError` with its status
and the progress percent reached when it surfaced, or a generic
exception (network errors and others behave identically at this
granularity: retried unless it is the last attempt). -/
inductive AttemptRes where
  | okA
  | httpA (status : Nat) (reached : Nat)
  | excA (reached : Nat)
deriving DecidableEq, Repr

/-- Terminal outcome of `upload_with_progress`. -/
inductive DriveOutcome where
  | okDone
  | quotaPerm
  | notFound
  | authFailed
  | serverFail (status : Nat)
  | genericFail
  | unknownFail
deriving DecidableEq, Repr

/-- The `for attempt in range(max_retries)` loop, also collecting the
start position (progress percent) of each attempt actually begun — by
construction of the fresh request every element is 0.  `HttpError`
dispatch follows lines 349-374: 403 → quota/permission, 404 → not found,
401 → clear the cached service and retry unless this is the last attempt
(lines 360-367), status ≥ 500 → retry unless last attempt, anything else
fails at once.  A generic exception retries unless it is the last attempt
(lines 376-387); falling out of the loop returns the final unknown
failure (line 389). -/
def driveAttempts : Nat → Nat → List AttemptRes → DriveOutcome × List Nat
  | _, _, [] => (.unknownFail, [])
  | attempt, maxR, o :: rest =>
    if maxR ≤ attempt then (.unknownFail, [])
    else
      match o with
      | .okA => (.okDone, [0])
      | .httpA s _ =>
        if s == 403 then (.quotaPerm, [0])
        else if s == 404 then (.notFound, [0])
        else if s == 401 then
          if attempt < maxR - 1 then
            let p := driveAttempts (attempt + 1) maxR rest
            (p.1, 0 :: p.2)
          else (.authFailed, [0])
        else if 500 ≤ s then
          if attempt < maxR - 1 then
            let p := driveAttempts (attempt + 1) maxR rest
            (p.1, 0 :: p.2)
          else (.serverFail s, [0])
        else (.genericFail, [0])
      | .excA _ =>
        if attempt + 1 == maxR then (.genericFail, [0])
        else
          let p := driveAttempts (attempt + 1) maxR rest
          (p.1, 0 :: p.2)

/-! ## Helper lemmas -/

theorem addActiveEncode_length (id : String) (s : List String) :
    (addActiveEncode id s).length ≤ s.length + 1 := by
  unfold addActiveEncode
  split
  · exact Nat.le_succ _
  · simp

theorem encStep_length_le (s : List String) (op : EncOp)
    (h : s.length ≤ maxConcurrentEncodes) :
    (encStep s op).length ≤ maxConcurrentEncodes := by
  cases op with
  | submit id filesOk =>
    simp only [encStep, encodeSinglePassAdmit]
    by_cases hc : canStartNewEncode s = true
    · have hlt : s.length < maxConcurrentEncodes := by
        simpa [canStartNewEncode] using hc
      simp only [hc, Bool.not_true, Bool.false_eq_true, if_false]
      by_cases hf : filesOk = true
      · simp only [hf, Bool.not_true, Bool.false_eq_true, if_false]
        have := addActiveEncode_length id s
        omega
      · simp only [Bool.not_eq_true] at hf
        simp [hf, h]
    · simp only [Bool.not_eq_true] at hc
      simp [hc, h]
  | finish id =>
    simp only [encStep, removeActiveEncode]
    exact le_trans (List.length_filter_le _ _) h

theorem encRun_aux_le (ops : List EncOp) :
    ∀ s : List String, s.length ≤ maxConcurrentEncodes →
      (ops.foldl encStep s).length ≤ maxConcurrentEncodes := by
  induction ops with
  | nil => intro s h; simpa using h
  | cons op rest ih =>
    intro s h
    simpa using ih (encStep s op) (encStep_length_le s op h)

/-! ## Claims C1-C3 -/

/-- C1: over every sequence of submissions and completions the number of
active encodes tracked by `FastVideoEncoder` never exceeds
`max_concurrent_encodes = 3`, and a submission arriving while 3 encodes
are active returns the rejection message carrying `count/capacity`
immediately, with the registry unchanged (no new encode registered).
The admission path is a pure function here, so the rejection involves no
waiting. -/
theorem c1_encoder_concurrency_cap :
    (∀ ops : List EncOp, (encRun ops).length ≤ maxConcurrentEncodes) ∧
    (∀ (s : List String) (id : String) (filesOk : Bool),
      s.length = maxConcurrentEncodes →
      encodeSinglePassAdmit s id filesOk =
        ((false, "Maksimum encode limitine ulasildi! Aktif: 3/3"), s)) := by
  constructor
  · intro ops
    exact encRun_aux_le ops [] (by simp)
  · intro s id filesOk h
    have h3 : s.length = 3 := h
    simp [encodeSinglePassAdmit, canStartNewEncode, maxConcurrentEncodes, h3]
    rfl

/-- Witness for C1 at a concrete run: four submissions stay within the cap,
and a submission against a full registry is rejected unchanged. -/
theorem c1_encoder_concurrency_cap_witness :
    (encRun [EncOp.submit "a" true, EncOp.submit "b" true,
             EncOp.submit "c" true, EncOp.submit "d" true]).length ≤
      maxConcurrentEncodes ∧
    (["a", "b", "c"].length = maxConcurrentEncodes ∧
     encodeSinglePassAdmit ["a", "b", "c"] "d" true =
       ((false, "Maksimum encode limitine ulasildi! Aktif: 3/3"),
        ["a", "b", "c"])) :=
  ⟨c1_encoder_concurrency_cap.1 _,
   by decide,
   c1_encoder_concurrency_cap.2 ["a", "b", "c"] "d" true (by decide)⟩

/-- C2 (code bug): the monitoring loop of `download_magnet_fast` never
consults an idle budget.  With the fetch process still running, producing
no output since the start, the loop keeps waiting at 306 s elapsed — past
the declared `max_idle_time = 300` — and indeed at every elapsed value up
to the total budget; only `max_total_time` can break the loop, and the
loop has no idle-specific termination reason at all (`MonitorAction` has
no such constructor because the source has no such branch). -/
theorem c2_idle_timeout_not_enforced :
    monitorStep 306 false = MonitorAction.keepWaiting ∧
    monitorStep 1799 false = MonitorAction.keepWaiting ∧
    monitorStep 1801 false = MonitorAction.breakTotalTimeout ∧
    maxIdleTime < 306 := by decide

/-- C3 counterexample: on the exit path of `download_magnet_fast` where
the spawn succeeded, a result file was found, and `os.path.getsize` on
line 201 raises after the removal on line 193 already ran, the handler on
line 241 removes again — the removal runs twice, not exactly once. -/
theorem c3_counterexample :
    removeCount (downloadRegOps ⟨true, true, true⟩ "J1") "J1" = 2 ∧
    (2 : Nat) ≠ 1 := by decide

/-- C3 amended: on every exit path following a successful registration the
removal is called at least once (at most twice), and because removal is
idempotent the job is absent from the active-jobs map after the terminal
result; `upload_video`, whose removal sits in a `finally`, removes exactly
once. -/
theorem c3_registry_cleanup (env : DLEnv) (id : String)
    (h : env.spawnOk = true) :
    (1 ≤ removeCount (downloadRegOps env id) id ∧
     removeCount (downloadRegOps env id) id ≤ 2) ∧
    applyRegOps (downloadRegOps env id) [] = [] ∧
    removeCount (uploadVideoRegOps id) id = 1 ∧
    applyRegOps (uploadVideoRegOps id) [] = [] := by
  rcases env with ⟨sp, ff, gr⟩
  simp only at h
  subst h
  cases ff <;> cases gr <;>
    simp_all [downloadRegOps, uploadVideoRegOps, removeCount,
      applyRegOps, applyRegOp]

/-- Witness for C3 amended at a concrete environment and job id. -/
theorem c3_registry_cleanup_witness :
    (DLEnv.spawnOk ⟨true, false, false⟩ = true) ∧
    ((1 ≤ removeCount (downloadRegOps ⟨true, false, false⟩ "D7") "D7" ∧
      removeCount (downloadRegOps ⟨true, false, false⟩ "D7") "D7" ≤ 2) ∧
     applyRegOps (downloadRegOps ⟨true, false, false⟩ "D7") [] = [] ∧
     removeCount (uploadVideoRegOps "D7") "D7" = 1 ∧
     applyRegOps (uploadVideoRegOps "D7") [] = []) :=
  ⟨rfl, c3_registry_cleanup ⟨true, false, false⟩ "D7" rfl⟩

/-! ## Claim C4 -/

theorem progressEventsAux_gt (inputs : List (Nat × Nat)) :
    ∀ (last q : Nat), q ∈ progressEventsAux last inputs →
      last < q ∧ q ∈ inputs.map Prod.fst := by
  induction inputs with
  | nil =>
    intro last q hq
    simp [progressEventsAux] at hq
  | cons p rest ih =>
    intro last q hq
    rcases p with ⟨pct, el⟩
    simp only [progressEventsAux] at hq
    by_cases hc : (decide (last < pct) && decide (0 < el)) = true
    · rw [if_pos hc] at hq
      have hlt : last < pct := by
        have := (Bool.and_eq_true _ _).mp hc
        exact of_decide_eq_true this.1
      rcases List.mem_cons.mp hq with h1 | h2
      · subst h1
        exact ⟨hlt, by simp⟩
      · have := ih pct q h2
        exact ⟨lt_trans hlt this.1, by simp [this.2]⟩
    · rw [if_neg hc] at hq
      have := ih last q hq
      exact ⟨this.1, by simp [this.2]⟩

theorem progressEventsAux_chain (inputs : List (Nat × Nat)) :
    ∀ last : Nat, List.Chain' (· < ·) (progressEventsAux last inputs) := by
  induction inputs with
  | nil => intro last; simp [progressEventsAux]
  | cons p rest ih =>
    intro last
    rcases p with ⟨pct, el⟩
    simp only [progressEventsAux]
    split
    · refine List.chain'_cons'.mpr ⟨?_, ih pct⟩
      intro y hy
      have hmem : y ∈ progressEventsAux pct rest := List.mem_of_mem_head? hy
      exact (progressEventsAux_gt rest pct y hmem).1
    · exact ih last

/-- C4 counterexample: an attempt that reached 50 % and then failed with a
retryable attempt-level error is restarted from scratch with
`last_progress = 0`, so the callback stream over the whole
`upload_with_progress` call can regress: the stream `[50, 10]` delivered
across two attempts is not strictly increasing. -/
theorem c4_counterexample :
    uploadCallbackStream [[(50, 1)], [(10, 1)]] = [50, 10] ∧
    ¬ List.Chain' (· < ·) (uploadCallbackStream [[(50, 1)], [(10, 1)]]) := by
  refine ⟨rfl, ?_⟩
  intro hch
  rw [show uploadCallbackStream [[(50, 1)], [(10, 1)]] = [50, 10] from rfl] at hch
  simp [List.chain'_cons] at hch

/-- C4 amended: within a single attempt of `upload_with_progress` the
percent values delivered to the progress callback are strictly increasing
(an event fires only when the percent advanced past the previously
reported value) and, given that the API progress fractions lie in
`[0, 1]` so each polled percent is at most 100, every reported value lies
in `[0, 100]`; across attempt-level retries the stream may restart lower. -/
theorem c4_attempt_progress_monotone (inputs : List (Nat × Nat))
    (h : ∀ p ∈ inputs, p.1 ≤ 100) :
    List.Chain' (· < ·) (progressEvents inputs) ∧
    ∀ q ∈ progressEvents inputs, q ≤ 100 := by
  constructor
  · exact progressEventsAux_chain inputs 0
  · intro q hq
    have hm := (progressEventsAux_gt inputs 0 q hq).2
    rcases List.mem_map.mp hm with ⟨p, hp, hpq⟩
    exact hpq ▸ h p hp

/-- Witness for C4 amended at a concrete polled-status stream. -/
theorem c4_attempt_progress_monotone_witness :
    (∀ p ∈ [((10 : Nat), (2 : Nat)), (10, 3), (30, 1), (20, 5), (55, 4)],
      p.1 ≤ 100) ∧
    (List.Chain' (· < ·)
        (progressEvents [(10, 2), (10, 3), (30, 1), (20, 5), (55, 4)]) ∧
     ∀ q ∈ progressEvents [(10, 2), (10, 3), (30, 1), (20, 5), (55, 4)],
       q ≤ 100) :=
  ⟨by decide, c4_attempt_progress_monotone _ (by decide)⟩

/-! ## Claim C5 -/

theorem largestFile_spec (l : List DirEntry) (h : l ≠ []) :
    ∃ e, largestFile l = some e ∧ e ∈ l ∧ ∀ f ∈ l, f.size ≤ e.size := by
  induction l with
  | nil => exact absurd rfl h
  | cons a rest ih =>
    by_cases hr : rest = []
    · subst hr
      exact ⟨a, by simp [largestFile], by simp, by simp⟩
    · rcases ih hr with ⟨m, hm, hmem, hle⟩
      refine ⟨if m.size > a.size then m else a, ?_, ?_, ?_⟩
      · simp [largestFile, hm]
      · split
        · exact List.mem_cons_of_mem a hmem
        · exact List.mem_cons_self a rest
      · intro f hf
        rcases List.mem_cons.mp hf with rfl | hf'
        · split
          · rename_i hgt; exact le_of_lt hgt
          · exact le_refl _
        · have := hle f hf'
          split
          · exact this
          · rename_i hng
            omega

theorem targetFiles_sub_candidates (now : Int) (entries : List DirEntry) :
    ∀ e ∈ targetFiles now entries, e ∈ candidateFiles entries := by
  intro e he
  unfold targetFiles at he
  split at he
  · exact he
  · exact List.mem_of_mem_filter he

/-- C5: `find_downloaded_file` filters the regular files to those with a
known video extension, prefers the candidates modified within the 3-hour
window, falls back to the full candidate set when none is recent, and
returns the largest-by-byte-size member of the chosen set (with no custom
name, the returned path is exactly that file's). -/
theorem c5_artifact_selection (now : Int) (entries : List DirEntry)
    (h : candidateFiles entries ≠ []) :
    ∃ e, largestFile (targetFiles now entries) = some e ∧
      e ∈ targetFiles now entries ∧
      (∀ f ∈ targetFiles now entries, f.size ≤ e.size) ∧
      e.isFile = true ∧ isVideoName e.name = true ∧
      (recentFiles now entries ≠ [] →
        e ∈ recentFiles now entries ∧ now - e.mtime ≤ 3 * 3600) ∧
      (recentFiles now entries = [] → e ∈ candidateFiles entries) ∧
      (∀ env : RenameEnv,
        findDownloadedFile now entries none env = (some e.name, [])) := by
  have htne : targetFiles now entries ≠ [] := by
    unfold targetFiles
    split
    · exact h
    · rename_i hre
      simpa [List.isEmpty_iff] using hre
  rcases largestFile_spec _ htne with ⟨e, he, hmem, hle⟩
  have hcand : e ∈ candidateFiles entries :=
    targetFiles_sub_candidates now entries e hmem
  have hprop := List.mem_filter.mp hcand
  have hfile : (e.isFile && isVideoName e.name) = true := hprop.2
  refine ⟨e, he, hmem, hle, (Bool.and_eq_true _ _).mp hfile |>.1,
    (Bool.and_eq_true _ _).mp hfile |>.2, ?_, ?_, ?_⟩
  · intro hrne
    have hteq : targetFiles now entries = recentFiles now entries := by
      unfold targetFiles
      split
      · rename_i hre
        exact absurd (List.isEmpty_iff.mp hre) hrne
      · rfl
    have hrecent : e ∈ recentFiles now entries := hteq ▸ hmem
    have := (List.mem_filter.mp hrecent).2
    exact ⟨hrecent, by simpa using this⟩
  · intro _
    exact hcand
  · intro env
    simp [findDownloadedFile, he]

/-- Witness for C5 at a concrete directory: among three video candidates
the two recent ones are preferred and the larger of them is returned, a
bigger non-video file and a directory notwithstanding. -/
theorem c5_artifact_selection_witness :
    (candidateFiles
        [⟨"old.mkv", true, 500, 0⟩, ⟨"new.mp4", true, 300, 95000⟩,
         ⟨"bigger_recent.avi", true, 400, 96000⟩,
         ⟨"notvideo.txt", true, 999999, 99999⟩,
         ⟨"sub.mkv", false, 999, 99999⟩] ≠ []) ∧
    (∃ e, largestFile (targetFiles 100000
          [⟨"old.mkv", true, 500, 0⟩, ⟨"new.mp4", true, 300, 95000⟩,
           ⟨"bigger_recent.avi", true, 400, 96000⟩,
           ⟨"notvideo.txt", true, 999999, 99999⟩,
           ⟨"sub.mkv", false, 999, 99999⟩]) = some e ∧
      e ∈ targetFiles 100000
          [⟨"old.mkv", true, 500, 0⟩, ⟨"new.mp4", true, 300, 95000⟩,
           ⟨"bigger_recent.avi", true, 400, 96000⟩,
           ⟨"notvideo.txt", true, 999999, 99999⟩,
           ⟨"sub.mkv", false, 999, 99999⟩] ∧
      (∀ f ∈ targetFiles 100000
          [⟨"old.mkv", true, 500, 0⟩, ⟨"new.mp4", true, 300, 95000⟩,
           ⟨"bigger_recent.avi", true, 400, 96000⟩,
           ⟨"notvideo.txt", true, 999999, 99999⟩,
           ⟨"sub.mkv", false, 999, 99999⟩], f.size ≤ e.size) ∧
      e.isFile = true ∧ isVideoName e.name = true ∧
      (recentFiles 100000
          [⟨"old.mkv", true, 500, 0⟩, ⟨"new.mp4", true, 300, 95000⟩,
           ⟨"bigger_recent.avi", true, 400, 96000⟩,
           ⟨"notvideo.txt", true, 999999, 99999⟩,
           ⟨"sub.mkv", false, 999, 99999⟩] ≠ [] →
        e ∈ recentFiles 100000
          [⟨"old.mkv", true, 500, 0⟩, ⟨"new.mp4", true, 300, 95000⟩,
           ⟨"bigger_recent.avi", true, 400, 96000⟩,
           ⟨"notvideo.txt", true, 999999, 99999⟩,
           ⟨"sub.mkv", false, 999, 99999⟩] ∧ 100000 - e.mtime ≤ 3 * 3600) ∧
      (recentFiles 100000
          [⟨"old.mkv", true, 500, 0⟩, ⟨"new.mp4", true, 300, 95000⟩,
           ⟨"bigger_recent.avi", true, 400, 96000⟩,
           ⟨"notvideo.txt", true, 999999, 99999⟩,
           ⟨"sub.mkv", false, 999, 99999⟩] = [] →
        e ∈ candidateFiles
          [⟨"old.mkv", true, 500, 0⟩, ⟨"new.mp4", true, 300, 95000⟩,
           ⟨"bigger_recent.avi", true, 400, 96000⟩,
           ⟨"notvideo.txt", true, 999999, 99999⟩,
           ⟨"sub.mkv", false, 999, 99999⟩]) ∧
      (∀ env : RenameEnv,
        findDownloadedFile 100000
          [⟨"old.mkv", true, 500, 0⟩, ⟨"new.mp4", true, 300, 95000⟩,
           ⟨"bigger_recent.avi", true, 400, 96000⟩,
           ⟨"notvideo.txt", true, 999999, 99999⟩,
           ⟨"sub.mkv", false, 999, 99999⟩] none env = (some e.name, []))) :=
  ⟨by decide, c5_artifact_selection 100000 _ (by decide)⟩

/-! ## Claims C6 and C7 -/

/-- C6 counterexample: a directory holding only a `.part` marker file and
an empty directory produce the same observable result `(none, [])` from
`find_downloaded_file` — the "still in progress" case is logged but
returns the very value the "not found" case returns, so the caller cannot
distinguish them. -/
theorem c6_counterexample :
    findDownloadedFile 10000 [⟨"movie.part", true, 10485760, 9000⟩] none
      ⟨false, false⟩ = (none, []) ∧
    findDownloadedFile 10000 [] none ⟨false, false⟩ = (none, []) := by
  decide

/-- C6 amended: when no video candidate exists and some listing entry
carries a temporary-marker substring, `find_downloaded_file` returns
`none` — the same value as for an empty directory; the in-progress
detection only suppresses the desperate fallback (and emits a log line),
it does not produce a distinguishable result. -/
theorem c6_pending_returns_none (now : Int) (entries : List DirEntry)
    (customName : Option String) (env : RenameEnv)
    (h1 : candidateFiles entries = [])
    (h2 : hasTempFiles entries = true) :
    findDownloadedFile now entries customName env = (none, []) := by
  have ht : targetFiles now entries = [] := by
    simp [targetFiles, recentFiles, h1]
  simp [findDownloadedFile, ht, largestFile, h2]

/-- Witness for C6 amended: a 20 MiB fresh `.part` file would be picked by
the desperate fallback, yet the marker forces the `none` result. -/
theorem c6_pending_returns_none_witness :
    (candidateFiles [⟨"x.part", true, 20971520, 9999⟩] = [] ∧
     hasTempFiles [⟨"x.part", true, 20971520, 9999⟩] = true) ∧
    findDownloadedFile 10000 [⟨"x.part", true, 20971520, 9999⟩] none
      ⟨false, false⟩ = (none, []) :=
  ⟨⟨by decide, by decide⟩,
   c6_pending_returns_none 10000 _ none ⟨false, false⟩ (by decide) (by decide)⟩

/-- C7: with a desired output name and a resolved candidate (whose name
has an extension), `find_downloaded_file` renames the resolved file to
the desired name plus the file's original extension, removing a distinct
pre-existing destination first (the removal precedes the rename in the
operation list); when `os.rename` — or the preceding `os.remove` — fails,
it returns the original resolved path instead of failing. -/
theorem c7_rename_behavior (now : Int) (entries : List DirEntry)
    (c : String) (env : RenameEnv) (L : DirEntry)
    (hL : largestFile (targetFiles now entries) = some L)
    (hext : splitextExt L.name ≠ "") :
    (env.removeRaises = false → env.renameRaises = false →
      findDownloadedFile now entries (some c) env =
        (some (c ++ splitextExt L.name),
          (if entries.any (fun e => e.name == c ++ splitextExt L.name) &&
              (c ++ splitextExt L.name) != L.name then
            [FsOp.removeDest (c ++ splitextExt L.name)]
          else []) ++
          (if (c ++ splitextExt L.name) != L.name then
            [FsOp.renameFile L.name (c ++ splitextExt L.name)]
          else []))) ∧
    (env.renameRaises = true → c ++ splitextExt L.name ≠ L.name →
      (findDownloadedFile now entries (some c) env).1 = some L.name) ∧
    (env.removeRaises = true →
      entries.any (fun e => e.name == c ++ splitextExt L.name) = true →
      c ++ splitextExt L.name ≠ L.name →
      (findDownloadedFile now entries (some c) env).1 = some L.name) := by
  have hbe : (splitextExt L.name == "") = false := by
    simpa using hext
  refine ⟨?_, ?_, ?_⟩
  · intro h1 h2
    cases hd : entries.any (fun e => e.name == c ++ splitextExt L.name) <;>
      cases hne : (c ++ splitextExt L.name) != L.name <;>
      simp [findDownloadedFile, hL, renameResolved, hbe, h1, h2, hd, hne]
  · intro h1 h2
    have hne : ((c ++ splitextExt L.name) != L.name) = true := by
      simpa using h2
    cases hd : entries.any (fun e => e.name == c ++ splitextExt L.name) <;>
      cases hrr : env.removeRaises <;>
      simp [findDownloadedFile, hL, renameResolved, hbe, hne, h1, hd, hrr]
  · intro h1 h2 h3
    have hne : ((c ++ splitextExt L.name) != L.name) = true := by
      simpa using h3
    simp [findDownloadedFile, hL, renameResolved, hbe, hne, h1, h2]

/-- Witness for C7: a single fresh `abc.mkv` candidate renamed to
`episode.mkv`. -/
theorem c7_rename_behavior_witness :
    (largestFile (targetFiles 10000 [⟨"abc.mkv", true, 5000000, 9000⟩]) =
        some ⟨"abc.mkv", true, 5000000, 9000⟩ ∧
     splitextExt "abc.mkv" ≠ "") ∧
    ((RenameEnv.removeRaises ⟨false, false⟩ = false →
      RenameEnv.renameRaises ⟨false, false⟩ = false →
      findDownloadedFile 10000 [⟨"abc.mkv", true, 5000000, 9000⟩]
          (some "episode") ⟨false, false⟩ =
        (some ("episode" ++ splitextExt "abc.mkv"),
          (if [⟨"abc.mkv", true, 5000000, 9000⟩].any
              (fun e => DirEntry.name e ==
                "episode" ++ splitextExt "abc.mkv") &&
              ("episode" ++ splitextExt "abc.mkv") != "abc.mkv" then
            [FsOp.removeDest ("episode" ++ splitextExt "abc.mkv")]
          else []) ++
          (if ("episode" ++ splitextExt "abc.mkv") != "abc.mkv" then
            [FsOp.renameFile "abc.mkv"
              ("episode" ++ splitextExt "abc.mkv")]
          else []))) ∧
     (RenameEnv.renameRaises ⟨false, false⟩ = true →
      "episode" ++ splitextExt "abc.mkv" ≠ "abc.mkv" →
      (findDownloadedFile 10000 [⟨"abc.mkv", true, 5000000, 9000⟩]
          (some "episode") ⟨false, false⟩).1 = some "abc.mkv") ∧
     (RenameEnv.removeRaises ⟨false, false⟩ = true →
      [⟨"abc.mkv", true, 5000000, 9000⟩].any
          (fun e => DirEntry.name e == "episode" ++ splitextExt "abc.mkv") =
        true →
      "episode" ++ splitextExt "abc.mkv" ≠ "abc.mkv" →
      (findDownloadedFile 10000 [⟨"abc.mkv", true, 5000000, 9000⟩]
          (some "episode") ⟨false, false⟩).1 = some "abc.mkv")) :=
  ⟨⟨by decide, by decide⟩,
   c7_rename_behavior 10000 [⟨"abc.mkv", true, 5000000, 9000⟩] "episode"
     ⟨false, false⟩ ⟨"abc.mkv", true, 5000000, 9000⟩ (by decide) (by decide)⟩

/-! ## Claim C8 -/

theorem chunkLoop_delays_le (stream : List ChunkRes) :
    ∀ rcc : Nat, ((chunkLoop rcc stream).2.all (fun d => d ≤ 10)) = true := by
  induction stream with
  | nil => intro rcc; simp [chunkLoop]
  | cons r rest ih =>
    intro rcc
    cases r with
    | ok pct done =>
      simp only [chunkLoop]
      split
      · simp
      · exact ih 0
    | httpE s =>
      simp only [chunkLoop]
      split
      · split
        · simp
        · simpa [Nat.min_le_right] using ih (rcc + 1)
      · simp
    | excE =>
      simp only [chunkLoop]
      split
      · simp
      · rename_i hlt
        have hb : (rcc + 1) * 2 ≤ 10 := by omega
        simpa [hb] using ih (rcc + 1)

/-- C8 counterexample: three consecutive 503 failures on a chunk produce
the backoff delays `[2, 4, 6]` (all below the 10 s cap).  An exponential
schedule has geometric consecutive delays below its cap — its third delay
after 2 and 4 would be 8 — but `2 * 6 ≠ 4 * 4`: the schedule
`min(2 * k, 10)` is linear, not exponential. -/
theorem c8_counterexample :
    (chunkLoop 0
        [.httpE 503, .httpE 503, .httpE 503, .ok 100 true]).2 = [2, 4, 6] ∧
    2 * 6 ≠ 4 * 4 := by decide

/-- C8 amended: a server-class chunk failure (HTTP 500/502/503/504) is
retried with capped linearly-increasing backoff `min(2k, 10)` seconds,
never more than 10 s; a chunk failing twice with 503 and then succeeding
in a ten-chunk upload yields exactly the two delays `[2, 4]` and overall
success; the fifth consecutive server-class failure escalates to overall
failure after exactly four backoff delays. -/
theorem c8_chunk_retry_backoff :
    chunkLoop 0
        [.ok 10 false, .ok 20 false, .ok 30 false, .httpE 503, .httpE 503,
         .ok 40 false, .ok 50 false, .ok 60 false, .ok 70 false,
         .ok 80 false, .ok 90 false, .ok 100 true] =
      (.completed, [2, 4]) ∧
    (∀ rest : List ChunkRes,
      chunkLoop 0 ([.httpE 503, .httpE 503, .httpE 503, .httpE 503,
          .httpE 503] ++ rest) =
        (.escalatedHttp 503, [2, 4, 6, 8])) ∧
    (∀ (rcc : Nat) (stream : List ChunkRes),
      ((chunkLoop rcc stream).2.all (fun d => d ≤ 10)) = true) := by
  refine ⟨by decide, ?_, ?_⟩
  · intro rest
    rfl
  · intro rcc stream
    exact chunkLoop_delays_le stream rcc

/-! ## Claim C9 -/

theorem driveAttempts_starts_zero (outs : List AttemptRes) :
    ∀ attempt maxR : Nat,
      ((driveAttempts attempt maxR outs).2.all (fun x => x == 0)) = true := by
  induction outs with
  | nil => intro a m; simp [driveAttempts]
  | cons o rest ih =>
    intro a m
    cases o with
    | okA => simp only [driveAttempts]; split_ifs <;> simp
    | httpA s reached =>
      simp only [driveAttempts]
      split_ifs <;> simp [ih]
    | excA reached =>
      simp only [driveAttempts]
      split_ifs <;> simp [ih]

/-- C9 counterexample: a 401 raised when the transfer had reached 50 %
leads to a second attempt whose transfer starts at 0 — the fresh
`MediaFileUpload`/`files().create` pair resumes nothing — and three
consecutive 401s under the default `max_retries = 3` run three attempts
(two re-authentications), so a recurring auth failure is retried again
rather than treated as terminal after one recovery. -/
theorem c9_counterexample :
    driveAttempts 0 3 [.httpA 401 50, .okA] = (.okDone, [0, 0]) ∧
    driveAttempts 0 3 [.httpA 401 10, .httpA 401 20, .httpA 401 30] =
      (.authFailed, [0, 0, 0]) ∧
    (0 : Nat) ≠ 50 := by decide

/-- C9 amended: on a 401 `upload_with_progress` clears the cached client
and the next attempt re-authenticates and restarts the whole transfer
from the beginning (every attempt's start position is 0, whatever an
earlier attempt reached); with the default `max_retries = 3` a 401 is
retried on the first two attempts and only a 401 on the final attempt
returns the terminal "Authentication failed". -/
theorem c9_auth_restart :
    (∀ (attempt maxR : Nat) (outs : List AttemptRes),
      ((driveAttempts attempt maxR outs).2.all (fun x => x == 0)) = true) ∧
    (∀ r1 r2 r3 : Nat,
      driveAttempts 0 3 [.httpA 401 r1, .httpA 401 r2, .httpA 401 r3] =
        (.authFailed, [0, 0, 0])) := by
  refine ⟨?_, ?_⟩
  · intro attempt maxR outs
    exact driveAttempts_starts_zero outs attempt maxR
  · intro r1 r2 r3
    rfl

/-! ## Claim C10 -/

/-- C10: when the directory holds no video candidate and no entry name
carries a temporary-marker substring, `find_downloaded_file` falls back to
the first regular file larger than 10 MiB modified at most 2 hours ago —
regardless of extension — and returns "not found" exactly when no such
file exists. -/
theorem c10_desperate_fallback (now : Int) (entries : List DirEntry)
    (customName : Option String) (env : RenameEnv)
    (h1 : candidateFiles entries = [])
    (h2 : hasTempFiles entries = false) :
    (findDownloadedFile now entries customName env).1 =
      (desperatePick now entries).map DirEntry.name ∧
    (∀ e, desperatePick now entries = some e →
      e ∈ entries ∧ e.isFile = true ∧ 10 * 1024 * 1024 < e.size ∧
      now - e.mtime ≤ 2 * 3600) ∧
    ((desperatePick now entries = none) ↔
      ∀ e ∈ entries, ¬(e.isFile = true ∧ 10 * 1024 * 1024 < e.size ∧
        now - e.mtime ≤ 2 * 3600)) := by
  have ht : targetFiles now entries = [] := by
    simp [targetFiles, recentFiles, h1]
  refine ⟨?_, ?_, ?_⟩
  · cases customName <;> simp [findDownloadedFile, ht, largestFile, h2]
  · intro e he
    have hmem : e ∈ entries := List.mem_of_find?_eq_some he
    have hp := List.find?_some he
    simp only [Bool.and_eq_true, decide_eq_true_eq] at hp
    exact ⟨hmem, hp.1.1, hp.1.2, hp.2⟩
  · unfold desperatePick
    rw [List.find?_eq_none]
    constructor
    · intro hall e hmem hc
      have := hall e hmem
      simp only [Bool.and_eq_true, decide_eq_true_eq] at this
      exact this ⟨⟨hc.1, hc.2.1⟩, hc.2.2⟩
    · intro hall e hmem
      have := hall e hmem
      simp only [Bool.and_eq_true, decide_eq_true_eq]
      intro hc
      exact this ⟨hc.1.1, hc.1.2, hc.2⟩

/-- Witness for C10: a 20 MiB fresh `data.bin` (no video extension, no
marker) is returned by the fallback. -/
theorem c10_desperate_fallback_witness :
    (candidateFiles [⟨"data.bin", true, 20971520, 9000⟩] = [] ∧
     hasTempFiles [⟨"data.bin", true, 20971520, 9000⟩] = false) ∧
    ((findDownloadedFile 10000 [⟨"data.bin", true, 20971520, 9000⟩]
        none ⟨false, false⟩).1 =
      (desperatePick 10000 [⟨"data.bin", true, 20971520, 9000⟩]).map
        DirEntry.name ∧
     (∀ e, desperatePick 10000 [⟨"data.bin", true, 20971520, 9000⟩] =
        some e →
      e ∈ [⟨"data.bin", true, 20971520, 9000⟩] ∧ e.isFile = true ∧
        10 * 1024 * 1024 < e.size ∧ 10000 - e.mtime ≤ 2 * 3600) ∧
     ((desperatePick 10000 [⟨"data.bin", true, 20971520, 9000⟩] = none) ↔
      ∀ e ∈ [(⟨"data.bin", true, 20971520, 9000⟩ : DirEntry)],
        ¬(e.isFile = true ∧ 10 * 1024 * 1024 < e.size ∧
          10000 - e.mtime ≤ 2 * 3600))) :=
  ⟨⟨by decide, by decide⟩,
   c10_desperate_fallback 10000 [⟨"data.bin", true, 20971520, 9000⟩]
     none ⟨false, false⟩ (by decide) (by decide)⟩
